import Mathlib

/-!
Verification development for the wallet balance tool (Rust repository
`wallet_balance_tool`).  The repository's core is the HD address-discovery
and balance-aggregation engine:

  * `src/wallet.rs`   — `check_balances`, `parse_xpub`, `AddressBalance`
  * `src/api.rs`      — `get_address_balance`
  * `src/utils.rs`    — `enforce_rate_limit`
  * `src/main.rs`     — a monolithic older copy of the same functionality
                        plus the `iced` application state machine (`update`)

The shallow embedding below translates these functions into Lean.
Trusted external primitives (base58 codec, SHA-256, secp256k1 child-key
derivation, the HTTP transport) are passed in as explicit function
parameters; everything the repository itself computes is embedded
faithfully.  Machine integers are modelled as `Nat` with explicit
`% 2 ^ 64` where u64 wraparound matters.  Balances (Rust `f64`) are
carried as exact rationals `Rat`; the engine never computes with them,
it only moves them from the provider response into the result records.
-/

namespace WalletTool

/-- Rust `str::starts_with`, char-for-char on the underlying character
lists (kept as a first-order recursive function so the kernel can
evaluate it). -/
def leadsWith : List Char → List Char → Bool
  | [], _ => true
  | _ :: _, [] => false
  | p :: ps, c :: cs => p == c && leadsWith ps cs

/-- Rust `str::starts_with pat` for `String`s. -/
def strStarts (s pat : String) : Bool :=
  leadsWith pat.data s.data

/-- Substring occurrence on character lists: `needle` occurs contiguously
in the haystack.  Used to embed Rust `str::contains`. -/
def listHasSub (needle : List Char) : List Char → Bool
  | [] => needle.isEmpty
  | c :: rest => leadsWith needle (c :: rest) || listHasSub needle rest

/-- Rust `str::contains needle` for `String`s. -/
def strContains (s needle : String) : Bool :=
  listHasSub needle.data s.data

/-- `bitcoin::Network` (only the variants the repository can produce are
ever used; `signet`/`regtest` only feed the `_ => Unsupported network`
arm of `get_address_balance`). -/
inductive Net where
  | bitcoin
  | testnet
  | signet
  | regtest
deriving DecidableEq, Repr

/-- A derivation coordinate `(chain, index)`: chain 0 is the external
chain (`m/0/i`), chain 1 the change chain (`m/1/i`). -/
structure Coord where
  chain : Nat
  index : Nat
deriving DecidableEq, Repr

/-- The canonical string rendering `m/<chain>/<index>` that
`DerivationPath::to_string` / the repository's `format!` calls produce. -/
def pathStr (c : Coord) : String :=
  "m/" ++ Nat.repr c.chain ++ "/" ++ Nat.repr c.index

/-- `wallet.rs:10` `AddressBalance`.  The `balance` field is the Rust
`f64` balance, carried as an exact rational. -/
structure AddressBalance where
  address : String
  balance : Rat
  derivation_path : String
deriving DecidableEq, Repr

/-! ## Extended-key normalization (`wallet.rs::parse_xpub`, main.rs copy) -/

/-- The tpub version bytes `[0x04, 0x35, 0x87, 0xCF]` (`wallet.rs:102`). -/
def tpubVersion : List Nat := [0x04, 0x35, 0x87, 0xCF]

/-- `wallet.rs:97-109`: from the base58-decoded bytes `decoded` of a
`vpub`, take `decoded[4 .. decoded.len()-4]` as key material, put the
tpub version bytes in front, and append the first 4 bytes of
SHA-256(SHA-256(buffer)) as checksum.  `sha256` is the trusted hash
primitive, passed in explicitly. -/
def vpubRemapPayload (sha256 : List Nat → List Nat) (decoded : List Nat) : List Nat :=
  let key_material := (decoded.drop 4).take (decoded.length - 4 - 4)
  let modified := tpubVersion ++ key_material
  let checksum := (sha256 (sha256 modified)).take 4
  modified ++ checksum

/-- `wallet.rs:88-119` `parse_xpub`.  The trusted base58 primitives are
parameters: `b58FromCheck` is `base58::from_check` (checksum-verifying
decode, returns the payload *without* its 4 checksum bytes) and
`b58EncodeCheck` is `base58::encode_check` (appends a fresh checksum
before encoding). -/
def parseXpub
    (b58FromCheck : String → Except String (List Nat))
    (sha256 : List Nat → List Nat)
    (b58EncodeCheck : List Nat → String)
    (xpub : String) : Except String (Net × String) :=
  if strStarts xpub "vpub" then
    match b58FromCheck xpub with
    | .error e => .error ("Failed to decode vpub: " ++ e)
    | .ok decoded =>
      if decoded.length < 78 then
        .error "Invalid extended public key length"
      else
        .ok (.testnet, b58EncodeCheck (vpubRemapPayload sha256 decoded))
  else if strStarts xpub "xpub" then
    .ok (.bitcoin, xpub)
  else
    .error "Unsupported extended public key format. Must start with 'xpub' or 'vpub'"

/-! ## Balance provider (`api.rs::get_address_balance`) -/

/-- The integer fields of the provider JSON body (`api.rs:34-38`,
u64 values, hence `< 2^64` in any real response). -/
structure ChainStats where
  funded_txo_sum : Nat
  spent_txo_sum : Nat
deriving DecidableEq, Repr

/-- One observable outcome of an HTTP GET: a transport failure, or a
response with a status code and (if it parsed as `AddressData`) the
chain stats. -/
inductive HttpResp where
  | transport (e : String)
  | resp (status : Nat) (body : Option ChainStats)
deriving DecidableEq, Repr

/-- `api.rs:25`: `funded_txo_sum - spent_txo_sum` on `u64`.  In release
builds Rust subtraction wraps modulo `2^64` (debug builds panic on
overflow); for `funded, spent < 2^64` this is `(funded - spent) mod 2^64`. -/
def apiBalanceSat (funded spent : Nat) : Nat :=
  (2 ^ 64 + funded - spent) % 2 ^ 64

/-- `main.rs:476`: `funded.saturating_sub(spent)` — `Nat` subtraction is
exactly u64 saturating subtraction for in-range inputs. -/
def saturatingBalanceSat (funded spent : Nat) : Nat :=
  funded - spent

/-- `api.rs:5-9`: base URL per network; `None` models the
`_ => Err("Unsupported network")` arm. -/
def baseUrl : Net → Option String
  | .bitcoin => some "https://blockstream.info/api"
  | .testnet => some "https://blockstream.info/testnet/api"
  | _ => none

/-- Result of the body of `api.rs::get_address_balance` once a response
arrived: status check first (`api.rs:16-18`), then JSON decode
(`api.rs:20-23`), then the balance computation (`api.rs:25-26`). -/
def responseResult : HttpResp → Except String Rat
  | .transport e => .error ("API request failed: " ++ e)
  | .resp status body =>
    if 200 ≤ status ∧ status < 300 then
      match body with
      | some stats =>
        .ok ((apiBalanceSat stats.funded_txo_sum stats.spent_txo_sum : Rat) / 100000000)
      | none => .error "Failed to parse API response: invalid body"
    else
      .error ("API error: " ++ Nat.repr status)

/-- `api.rs:4-27` `get_address_balance`, with the network modelled as a
stream of pending `HttpResp`s consumed one per issued request.  Returns
the result, the list of URLs actually requested, and the unconsumed
remainder of the stream.  An empty stream stands for a transport
failure. -/
def getAddressBalance (rs : List HttpResp) (address : String) (net : Net) :
    Except String Rat × List String × List HttpResp :=
  match baseUrl net with
  | none => (.error "Unsupported network", [], rs)
  | some base =>
    let url := base ++ "/address/" ++ address
    match rs with
    | [] => (.error "API request failed: no response", [url], [])
    | r :: rest => (responseResult r, [url], rest)

/-! ## Rate limiter (`utils.rs::enforce_rate_limit`, main.rs copy) -/

/-- `utils.rs:6` / `main.rs:24`: `MIN_REQUEST_INTERVAL = 250 ms`. -/
def MIN_REQUEST_INTERVAL_MS : Nat := 250

/-- Pure step of `utils.rs:8-21` `enforce_rate_limit`: given the value
`now` that the expression `Instant::now().elapsed().as_millis() as u64`
evaluates to and the stored `LAST_REQUEST` value `last`, return the
sleep duration in milliseconds (`0` when no sleep happens) and the value
stored back into `LAST_REQUEST`.  `now - last` is `Nat` subtraction,
matching `now.saturating_sub(last)`. -/
def enforceRateLimitStep (now last : Nat) : Nat × Nat :=
  let elapsed := now - last
  (if elapsed < MIN_REQUEST_INTERVAL_MS then MIN_REQUEST_INTERVAL_MS - elapsed else 0,
   now)

/-- The value `Instant::now().elapsed().as_millis() as u64` actually
takes at `utils.rs:10` / `main.rs:303`: `Instant::now()` captures the
current instant and `.elapsed()` measures the time since that *same*
instant was created — sub-microsecond, so `as_millis()` is `0` on every
call, irrespective of how much real time passed since the previous
acquire. -/
def nowValue : Nat := 0

/-! ## Discovery engine (`wallet.rs::check_balances`)

The trusted secp256k1 pipeline — `ExtendedPubKey::derive_pub` followed
by `PublicKey::new` and `Address::p2wpkh` (`wallet.rs:32-38`) — is one
fallible parameter `derive : Net → Key → Coord → Except String String`
from the key's network, the parsed key, and the coordinate to the
address string.  (`DerivationPath::from_str` on the well-formed literal
`m/<chain>/<index>` cannot fail and is folded into `pathStr`.)

`api::get_address_balance` is abstracted at the module boundary as a
balance oracle `bal : Nat → String → Except String Rat` from the
sequence number of the query within the page and the queried address to
the provider outcome.  `enforce_rate_limit` sits between derivation and
query in the source; it only delays and has no effect on any returned
value, so it does not appear in the value-level embedding (it is
analysed separately above). -/

/-- `wallet.rs:44`: the error classification used by both early-return
arms — an error is "transient" when its message contains `rate limit`
or `exceeded`. -/
def isTransientErr (e : String) : Bool :=
  strContains e "rate limit" || strContains e "exceeded"

/-- Outcome of processing a run of coordinates inside `check_balances`:
the loop ran to completion with accumulator `acc` (`done`), an early
`return Ok(balances)` fired on a transient query error (`stopped`), or
an early `return Err(e)` fired (`failed`). -/
inductive LoopOut where
  | done (acc : List AddressBalance)
  | stopped (acc : List AddressBalance)
  | failed (e : String)
deriving DecidableEq, Repr

section Engine

variable {Key : Type}
variable (derive : Net → Key → Coord → Except String String)
variable (bal : Nat → String → Except String Rat)

/-- One iteration of the body shared by the external loop
(`wallet.rs:29-55`) and the change-address block (`wallet.rs:57-83`):
derive the address for `c`, query its balance as the `n`-th query of
the page, and either extend the accumulator, stop early on a transient
error, or fail. -/
def checkOne (net : Net) (k : Key) (c : Coord) (n : Nat)
    (acc : List AddressBalance) : LoopOut :=
  match derive net k c with
  | .error e => .failed ("Derivation error: " ++ e)
  | .ok address =>
    match bal n address with
    | .ok b => .done (acc ++ [⟨address, b, pathStr c⟩])
    | .error e => if isTransientErr e then .stopped acc else .failed e

/-- The `for i in start_idx..end_idx` loop of `wallet.rs:29-55`, run
over an explicit coordinate list, with `n` the sequence number of the
next query. -/
def runCoords (net : Net) (k : Key) :
    List Coord → Nat → List AddressBalance → LoopOut
  | [], _, acc => .done acc
  | c :: cs, n, acc =>
    match checkOne derive bal net k c n acc with
    | .done acc' => runCoords net k cs (n + 1) acc'
    | out => out

/-- The exact coordinate sequence `check_balances` visits for the page
`[s, e)`: the external coordinates `(0, s) .. (0, e-1)` in increasing
order (`wallet.rs:29`), followed by the single change coordinate
`(1, s / 10)` (`wallet.rs:58`). -/
def pageCoords (s e : Nat) : List Coord :=
  (List.range' s (e - s)).map (fun i => ⟨0, i⟩) ++ [⟨1, s / 10⟩]

/-- `wallet.rs:17-86` `check_balances`. -/
def checkBalances
    (b58FromCheck : String → Except String (List Nat))
    (sha256 : List Nat → List Nat)
    (b58EncodeCheck : List Nat → String)
    (xpubFromStr : String → Except String Key)
    (xpub : String) (start_idx end_idx : Nat) :
    Except String (List AddressBalance) :=
  match parseXpub b58FromCheck sha256 b58EncodeCheck xpub with
  | .error e => .error e
  | .ok (network, xpub_to_use) =>
    match xpubFromStr xpub_to_use with
    | .error e => .error ("Invalid extended public key: " ++ e)
    | .ok extended_pubkey =>
      let extCount := end_idx - start_idx
      let extCoords := (List.range' start_idx extCount).map (fun i => (⟨0, i⟩ : Coord))
      match runCoords derive bal network extended_pubkey extCoords 0 [] with
      | .failed e => .error e
      | .stopped acc => .ok acc
      | .done acc =>
        match checkOne derive bal network extended_pubkey ⟨1, start_idx / 10⟩ extCount acc with
        | .failed e => .error e
        | .stopped acc' => .ok acc'
        | .done acc' => .ok acc'

end Engine

/-! ## Application state machine (`main.rs::WalletBalanceApp`) -/

/-- The fields of `main.rs:72-82` `WalletBalanceApp` (the executor
handle carries no observable state). -/
structure AppState where
  xpub_input : String
  balances : List AddressBalance
  error : Option String
  loading : Bool
  current_page : Nat
  addresses_per_page : Nat
  has_more : Bool
  total_addresses_checked : Nat
deriving DecidableEq, Repr

/-- `main.rs:85-99` `WalletBalanceApp::new`. -/
def initialState : AppState :=
  { xpub_input := ""
    balances := []
    error := none
    loading := false
    current_page := 0
    addresses_per_page := 10
    has_more := true
    total_addresses_checked := 0 }

/-- `main.rs:101-105` `calculate_address_range`. -/
def calculateAddressRange (st : AppState) : Nat × Nat :=
  (st.current_page * st.addresses_per_page,
   st.current_page * st.addresses_per_page + st.addresses_per_page)

/-- `main.rs:57-63` `Message`. -/
inductive Msg where
  | xpubInputChanged (s : String)
  | checkBalance
  | loadMore
  | balanceResult (r : Except String (List AddressBalance))

/-- `main.rs:123-176` `WalletBalanceApp::update`.  Returns the new state
and, when a `check_balances` command is spawned, the `(start, end)`
range it is spawned with. -/
def update (st : AppState) : Msg → AppState × Option (Nat × Nat)
  | .xpubInputChanged v =>
    ({ st with xpub_input := v, current_page := 0, balances := [],
               has_more := true, total_addresses_checked := 0 }, none)
  | .checkBalance =>
    let st' := { st with loading := true, error := none, current_page := 0,
                         balances := [], has_more := true,
                         total_addresses_checked := 0 }
    (st', some (calculateAddressRange st'))
  | .loadMore =>
    if !st.loading && st.has_more then
      let st' := { st with loading := true, current_page := st.current_page + 1 }
      (st', some (calculateAddressRange st'))
    else
      (st, none)
  | .balanceResult r =>
    match r with
    | .ok new_balances =>
      ({ st with loading := false,
                 total_addresses_checked :=
                   st.total_addresses_checked + new_balances.length,
                 balances := st.balances ++ new_balances,
                 has_more := true }, none)
    | .error e =>
      ({ st with loading := false,
                 error := some ("Error (showing partial results): " ++ e) }, none)

/-- State component of `update`, for folding message sequences. -/
def stepState (st : AppState) (m : Msg) : AppState :=
  (update st m).1

/-! ## Oracle shapes and expected page contents

The theorems below run `check_balances` against derivation and balance
oracles of explicit shapes: `okDerive A` is a derivation pipeline that
succeeds everywhere with addresses given by `A`, `okBal V` a provider
that answers every query, and `errAtOracle V j msg tail` a provider
that answers queries `0 .. j-1` with values from `V` and fails query
`j` with message `msg`. -/

/-- A derivation pipeline that always succeeds, producing `A net k c`. -/
def okDerive {Key : Type} (A : Net → Key → Coord → String) :
    Net → Key → Coord → Except String String :=
  fun net k c => .ok (A net k c)

/-- A balance oracle that always succeeds, answering `V n a`. -/
def okBal (V : Nat → String → Rat) : Nat → String → Except String Rat :=
  fun n a => .ok (V n a)

/-- A balance oracle that succeeds on queries `0 .. j-1` (with values
from `V`) and fails query `j` with error message `msg`; after `j` it is
arbitrary (`tail`). -/
def errAtOracle (V : Nat → String → Rat) (j : Nat) (msg : String)
    (tail : Nat → String → Except String Rat) : Nat → String → Except String Rat :=
  fun n a => if n < j then .ok (V n a) else if n = j then .error msg else tail n a

/-- The `AddressBalance` records `check_balances` produces for the
coordinate list `cs` when derivation yields addresses `A net k ·` and
the `n`-th query answers `V n ·`. -/
def entriesFor {Key : Type} (net : Net) (A : Net → Key → Coord → String) (k : Key)
    (V : Nat → String → Rat) : List Coord → Nat → List AddressBalance
  | [], _ => []
  | c :: cs, n =>
    ⟨A net k c, V n (A net k c), pathStr c⟩ :: entriesFor net A k V cs (n + 1)

/-- The `(address, derivation_path)` projection of a result list — the
part of a page that is determined by the key alone, independent of what
the provider answers. -/
def apOf (l : List AddressBalance) : List (String × String) :=
  l.map (fun ent => (ent.address, ent.derivation_path))

/-- The `(address, derivation_path)` pairs of a coordinate list. -/
def apFull {Key : Type} (net : Net) (A : Net → Key → Coord → String) (k : Key)
    (cs : List Coord) : List (String × String) :=
  cs.map (fun c => (A net k c, pathStr c))

/-! ## Characterization lemmas for the engine -/

theorem entriesFor_append {Key : Type} (net : Net) (A : Net → Key → Coord → String)
    (k : Key) (V : Nat → String → Rat) :
    ∀ (xs ys : List Coord) (n : Nat),
      entriesFor net A k V (xs ++ ys) n
        = entriesFor net A k V xs n ++ entriesFor net A k V ys (n + xs.length)
  | [], ys, n => by simp [entriesFor]
  | x :: xs, ys, n => by
    have ih := entriesFor_append net A k V xs ys (n + 1)
    have hn : n + 1 + xs.length = n + (xs.length + 1) := by omega
    simp [entriesFor, ih, hn]

theorem entriesFor_length {Key : Type} (net : Net) (A : Net → Key → Coord → String)
    (k : Key) (V : Nat → String → Rat) :
    ∀ (cs : List Coord) (n : Nat), (entriesFor net A k V cs n).length = cs.length
  | [], _ => rfl
  | _ :: cs, n => by simp [entriesFor, entriesFor_length net A k V cs (n + 1)]

theorem entriesFor_paths {Key : Type} (net : Net) (A : Net → Key → Coord → String)
    (k : Key) (V : Nat → String → Rat) :
    ∀ (cs : List Coord) (n : Nat),
      (entriesFor net A k V cs n).map (fun ent => ent.derivation_path) = cs.map pathStr
  | [], _ => rfl
  | _ :: cs, n => by simp [entriesFor, entriesFor_paths net A k V cs (n + 1)]

theorem apOf_entriesFor {Key : Type} (net : Net) (A : Net → Key → Coord → String)
    (k : Key) (V : Nat → String → Rat) :
    ∀ (cs : List Coord) (n : Nat), apOf (entriesFor net A k V cs n) = apFull net A k cs
  | [], _ => rfl
  | _ :: cs, n => by
    simp [entriesFor, apOf, apFull] at *
    exact apOf_entriesFor net A k V cs (n + 1)

/-- If the balance oracle answers every query the loop will make, the
loop runs to completion and appends exactly the expected entries. -/
theorem runCoords_done_of_ok {Key : Type} (A : Net → Key → Coord → String)
    (bal : Nat → String → Except String Rat) (net : Net) (k : Key)
    (V : Nat → String → Rat) :
    ∀ (cs : List Coord) (n : Nat) (acc : List AddressBalance),
      (∀ m a, m < cs.length → bal (n + m) a = .ok (V (n + m) a)) →
      runCoords (okDerive A) bal net k cs n acc
        = .done (acc ++ entriesFor net A k V cs n)
  | [], n, acc, _ => by simp [runCoords, entriesFor]
  | c :: cs, n, acc, h => by
    have h0 := h 0 (A net k c) (by simp)
    simp only [Nat.add_zero] at h0
    have ih := runCoords_done_of_ok A bal net k V cs (n + 1)
      (acc ++ [⟨A net k c, V n (A net k c), pathStr c⟩])
      (fun m a hm => by
        have h' := h (m + 1) a (by simpa using Nat.succ_lt_succ hm)
        have e : n + (m + 1) = n + 1 + m := by omega
        rw [e] at h'
        exact h')
    simp [runCoords, checkOne, okDerive, h0, ih, entriesFor]

/-- For an arbitrary balance oracle (with a derivation pipeline that
succeeds everywhere), an `.ok`-producing run only ever returns the
prior accumulator extended by `(address, path)` pairs that follow the
coordinate list in order: completely for `done`, as a front segment for
`stopped`. -/
theorem runCoords_ap {Key : Type} (A : Net → Key → Coord → String)
    (bal : Nat → String → Except String Rat) (net : Net) (k : Key) :
    ∀ (cs : List Coord) (n : Nat) (acc : List AddressBalance),
      (∀ acc', runCoords (okDerive A) bal net k cs n acc = .done acc' →
        apOf acc' = apOf acc ++ apFull net A k cs) ∧
      (∀ acc', runCoords (okDerive A) bal net k cs n acc = .stopped acc' →
        ∃ m, apOf acc' = apOf acc ++ (apFull net A k cs).take m)
  | [], n, acc => by
    constructor
    · intro acc' h
      simp [runCoords] at h
      simp [h, apFull]
    · intro acc' h
      simp [runCoords] at h
  | c :: cs, n, acc => by
    cases hb : bal n (A net k c) with
    | ok b =>
      obtain ⟨ihd, ihs⟩ := runCoords_ap A bal net k cs (n + 1)
        (acc ++ [⟨A net k c, b, pathStr c⟩])
      constructor
      · intro acc' h
        simp only [runCoords, checkOne, okDerive, hb] at h
        have := ihd acc' h
        simp [apOf, apFull] at this ⊢
        simp [this]
      · intro acc' h
        simp only [runCoords, checkOne, okDerive, hb] at h
        obtain ⟨m, hm⟩ := ihs acc' h
        refine ⟨m + 1, ?_⟩
        simp [apOf, apFull, List.take_succ_cons] at hm ⊢
        simp [hm]
    | error e =>
      constructor
      · intro acc' h
        simp only [runCoords, checkOne, okDerive, hb] at h
        cases ht : isTransientErr e <;> simp [ht] at h
      · intro acc' h
        simp only [runCoords, checkOne, okDerive, hb] at h
        cases ht : isTransientErr e <;> simp [ht] at h
        exact ⟨0, by simp [h]⟩

/-- A run against `errAtOracle V j msg tail` that reaches query `j`
stops (transient `msg`) or fails (fatal `msg`), with exactly the
entries for the first `j - n` coordinates accumulated. -/
theorem runCoords_errAt {Key : Type} (A : Net → Key → Coord → String)
    (V : Nat → String → Rat) (j : Nat) (msg : String)
    (tail : Nat → String → Except String Rat) (net : Net) (k : Key) :
    ∀ (cs : List Coord) (n : Nat) (acc : List AddressBalance),
      n ≤ j → j < n + cs.length →
      runCoords (okDerive A) (errAtOracle V j msg tail) net k cs n acc =
        if isTransientErr msg then
          .stopped (acc ++ entriesFor net A k V (cs.take (j - n)) n)
        else .failed msg
  | [], n, acc, hnj, hj => by simp at hj; omega
  | c :: cs, n, acc, hnj, hj => by
    by_cases hnj' : n = j
    · subst hnj'
      have hb : errAtOracle V n msg tail n (A net k c) = .error msg := by
        simp [errAtOracle]
      simp [runCoords, checkOne, okDerive, hb, entriesFor]
      cases ht : isTransientErr msg <;> simp [ht]
    · have hlt : n < j := Nat.lt_of_le_of_ne hnj hnj'
      have hb : errAtOracle V j msg tail n (A net k c) = .ok (V n (A net k c)) := by
        simp [errAtOracle, hlt]
      have ih := runCoords_errAt A V j msg tail net k cs (n + 1)
        (acc ++ [⟨A net k c, V n (A net k c), pathStr c⟩])
        (by omega) (by simp at hj; omega)
      have hjn : j - n = (j - (n + 1)) + 1 := by omega
      simp only [runCoords, checkOne, okDerive, hb, ih, hjn, List.take_succ_cons,
        entriesFor]
      cases ht : isTransientErr msg <;> simp [ht]

/-- Taking a front segment of `xs` is also a front segment of
`xs ++ ys`. -/
theorem take_of_append {α : Type} (xs ys : List α) (m : Nat) :
    xs.take m = (xs ++ ys).take (min m xs.length) := by
  rw [List.take_append_of_le_length (Nat.min_le_right m xs.length)]
  rw [List.take_eq_take]
  omega

/-- On an input that starts with `xpub` (and hence not with `vpub`),
`parse_xpub` returns mainnet and the input unchanged
(`wallet.rs:114-115`). -/
theorem parseXpub_xpub (b58 : String → Except String (List Nat))
    (sha : List Nat → List Nat) (enc : List Nat → String) (xinp : String)
    (hv : strStarts xinp "vpub" = false) (hx : strStarts xinp "xpub" = true) :
    parseXpub b58 sha enc xinp = .ok (.bitcoin, xinp) := by
  simp [parseXpub, hv, hx]

/-- When the provider answers every query, `check_balances` on an
`xpub` input returns exactly the entries for `pageCoords s e`. -/
theorem checkBalances_all_ok {Key : Type} (b58 : String → Except String (List Nat))
    (sha : List Nat → List Nat) (enc : List Nat → String) (K : Key)
    (A : Net → Key → Coord → String) (V : Nat → String → Rat)
    (xinp : String) (s e : Nat)
    (hv : strStarts xinp "vpub" = false) (hx : strStarts xinp "xpub" = true) :
    checkBalances (okDerive A) (okBal V) b58 sha enc (fun _ => .ok K) xinp s e
      = .ok (entriesFor .bitcoin A K V (pageCoords s e) 0) := by
  have hrun := runCoords_done_of_ok A (okBal V) .bitcoin K V
    ((List.range' s (e - s)).map (fun i => (⟨0, i⟩ : Coord))) 0 []
    (fun m a _ => rfl)
  have hlen : ((List.range' s (e - s)).map (fun i => (⟨0, i⟩ : Coord))).length = e - s := by
    simp
  simp only [checkBalances, parseXpub_xpub b58 sha enc xinp hv hx]
  simp only [pageCoords, entriesFor_append, hrun, checkOne, okDerive, okBal, hlen]
  simp [entriesFor]

/-- Any `.ok` result of `check_balances` (arbitrary provider behavior,
derivation succeeding with addresses `A`) has `(address, path)` pairs
that form a front segment of those of `pageCoords s e`. -/
theorem checkBalances_ok_ap {Key : Type} (b58 : String → Except String (List Nat))
    (sha : List Nat → List Nat) (enc : List Nat → String)
    (xfs : String → Except String Key) (A : Net → Key → Coord → String)
    (bal : Nat → String → Except String Rat) (xinp : String) (s e : Nat)
    (l : List AddressBalance)
    (h : checkBalances (okDerive A) bal b58 sha enc xfs xinp s e = .ok l) :
    ∃ net nrm k m, parseXpub b58 sha enc xinp = .ok (net, nrm) ∧ xfs nrm = .ok k ∧
      apOf l = (apFull net A k (pageCoords s e)).take m := by
  unfold checkBalances at h
  cases hp : parseXpub b58 sha enc xinp with
  | error err => rw [hp] at h; simp at h
  | ok p =>
    obtain ⟨net, nrm⟩ := p
    rw [hp] at h
    simp only [] at h
    cases hk : xfs nrm with
    | error err => rw [hk] at h; simp at h
    | ok k =>
      rw [hk] at h
      simp only [] at h
      refine ⟨net, nrm, k, ?_⟩
      have hap : apFull net A k (pageCoords s e)
          = apFull net A k ((List.range' s (e - s)).map (fun i => (⟨0, i⟩ : Coord)))
            ++ [(A net k ⟨1, s / 10⟩, pathStr ⟨1, s / 10⟩)] := by
        simp [apFull, pageCoords]
      cases hrc : runCoords (okDerive A) bal net k
          ((List.range' s (e - s)).map (fun i => (⟨0, i⟩ : Coord))) 0 [] with
      | failed msg => rw [hrc] at h; simp at h
      | stopped acc =>
        rw [hrc] at h
        simp at h
        subst h
        obtain ⟨m, hm⟩ := (runCoords_ap A bal net k
          ((List.range' s (e - s)).map (fun i => (⟨0, i⟩ : Coord))) 0 []).2 acc hrc
        refine ⟨min m (apFull net A k
          ((List.range' s (e - s)).map (fun i => (⟨0, i⟩ : Coord)))).length, rfl, hk, ?_⟩
        rw [hap, ← take_of_append]
        simpa [apOf] using hm
      | done acc =>
        rw [hrc] at h
        simp only at h
        have hacc : apOf acc = apFull net A k
            ((List.range' s (e - s)).map (fun i => (⟨0, i⟩ : Coord))) := by
          have := (runCoords_ap A bal net k
            ((List.range' s (e - s)).map (fun i => (⟨0, i⟩ : Coord))) 0 []).1 acc hrc
          simpa [apOf] using this
        cases hb : bal (e - s) (A net k ⟨1, s / 10⟩) with
        | ok b =>
          have hco : checkOne (okDerive A) bal net k ⟨1, s / 10⟩ (e - s) acc
              = .done (acc ++ [⟨A net k ⟨1, s / 10⟩, b, pathStr ⟨1, s / 10⟩⟩]) := by
            simp [checkOne, okDerive, hb]
          rw [hco] at h
          simp at h
          subst h
          refine ⟨(apFull net A k (pageCoords s e)).length, rfl, hk, ?_⟩
          rw [List.take_length, hap]
          simp [apOf, apFull] at hacc ⊢
          simp [hacc]
        | error err =>
          cases ht : isTransientErr err with
          | true =>
            have hco : checkOne (okDerive A) bal net k ⟨1, s / 10⟩ (e - s) acc
                = .stopped acc := by
              simp [checkOne, okDerive, hb, ht]
            rw [hco] at h
            simp at h
            subst h
            refine ⟨(apFull net A k
              ((List.range' s (e - s)).map (fun i => (⟨0, i⟩ : Coord)))).length, rfl, hk, ?_⟩
            rw [hap, List.take_left]
            exact hacc
          | false =>
            have hco : checkOne (okDerive A) bal net k ⟨1, s / 10⟩ (e - s) acc
                = .failed err := by
              simp [checkOne, okDerive, hb, ht]
            rw [hco] at h
            simp at h

/-- When the provider answers queries `0 .. j-1` and fails query `j`
(`j` within the page), `check_balances` returns the accumulated partial
page iff the failure message carries a transient marker, and the bare
error otherwise. -/
theorem checkBalances_errAt {Key : Type} (b58 : String → Except String (List Nat))
    (sha : List Nat → List Nat) (enc : List Nat → String) (K : Key)
    (A : Net → Key → Coord → String) (V : Nat → String → Rat) (j : Nat)
    (msg : String) (tail : Nat → String → Except String Rat)
    (xinp : String) (s e : Nat)
    (hv : strStarts xinp "vpub" = false) (hx : strStarts xinp "xpub" = true)
    (hj : j < (pageCoords s e).length) :
    checkBalances (okDerive A) (errAtOracle V j msg tail) b58 sha enc
        (fun _ => .ok K) xinp s e
      = if isTransientErr msg then
          .ok (entriesFor .bitcoin A K V ((pageCoords s e).take j) 0)
        else .error msg := by
  have hplen : (pageCoords s e).length = (e - s) + 1 := by simp [pageCoords]
  have hlen : ((List.range' s (e - s)).map (fun i => (⟨0, i⟩ : Coord))).length = e - s := by
    simp
  simp only [checkBalances, parseXpub_xpub b58 sha enc xinp hv hx]
  by_cases hje : j < e - s
  · have hrun := runCoords_errAt A V j msg tail .bitcoin K
      ((List.range' s (e - s)).map (fun i => (⟨0, i⟩ : Coord))) 0 []
      (Nat.zero_le j) (by rw [hlen]; omega)
    have htake : (pageCoords s e).take j
        = ((List.range' s (e - s)).map (fun i => (⟨0, i⟩ : Coord))).take j := by
      rw [pageCoords, List.take_append_of_le_length (by rw [hlen]; omega)]
    simp only [hrun, htake]
    cases ht : isTransientErr msg <;> simp [ht]
  · have hjeq : j = e - s := by rw [hplen] at hj; omega
    have hrun := runCoords_done_of_ok A (errAtOracle V j msg tail) .bitcoin K V
      ((List.range' s (e - s)).map (fun i => (⟨0, i⟩ : Coord))) 0 []
      (fun m a hm => by
        rw [hlen] at hm
        show errAtOracle V j msg tail (0 + m) a = .ok (V (0 + m) a)
        unfold errAtOracle
        rw [if_pos (show 0 + m < j by omega)])
    have hb : errAtOracle V j msg tail (e - s) (A .bitcoin K ⟨1, s / 10⟩)
        = .error msg := by
      simp [errAtOracle, hjeq]
    have htake : (pageCoords s e).take j
        = (List.range' s (e - s)).map (fun i => (⟨0, i⟩ : Coord)) := by
      rw [pageCoords, List.take_left' (by rw [hlen]; omega)]
    simp only [hrun, checkOne, okDerive, hb, htake]
    cases ht : isTransientErr msg <;> simp [ht]

/-! ## Claim theorems -/

/-- C2 (code defect witness): for a standard `vpub`, whose
checksum-verified base58 decode is exactly 78 bytes, `parse_xpub` hands
the encoder a 78-byte buffer, not the 82-byte buffer the claim
describes.  `base58::from_check` already strips the 4 checksum bytes,
so the slice `decoded[4 .. len-4]` extracts only 70 bytes of key
material (dropping the final 4 bytes of the public key); the rebuilt
buffer is 4 (tpub version) + 70 + 4 (in-band checksum) = 78 bytes, and
`base58::encode_check` then appends a second checksum.  Here the base58
decoder is stubbed to return 78 zero bytes, SHA-256 to a 32-byte block,
and the encoder to the decimal length of the byte string it receives:
the encoder observes 78 bytes. -/
theorem c2_vpub_remap_truncates :
    parseXpub (fun _ => .ok (List.replicate 78 0)) (fun _ => List.replicate 32 0)
        (fun bytes => Nat.repr bytes.length) "vpubTESTINPUT"
      = .ok (.testnet, "78")
  ∧ (((List.replicate 78 (0 : Nat)).drop 4).take (78 - 4 - 4)).length = 70 := by
  constructor
  · rfl
  · rfl

/-- C3 counterexample: the balance-query layer makes exactly one
attempt.  With a pending rate-limited response (HTTP 429) followed by a
perfectly good success response, `get_address_balance` returns the 429
error immediately, leaving the second response unconsumed, after a
single request to the one blockstream endpoint — there is no round 1 on
a second provider, no backoff, and no `AllProvidersExhausted`, contrary
to the claim's three-round fallback. -/
theorem c3_counterexample :
    getAddressBalance
        [HttpResp.resp 429 none, HttpResp.resp 200 (some ⟨500000000, 0⟩)]
        "bc1qdemo" Net.bitcoin
      = (.error "API error: 429",
         ["https://blockstream.info/api/address/bc1qdemo"],
         [HttpResp.resp 200 (some ⟨500000000, 0⟩)]) := by
  rfl

/-- C3 (amended): `get_address_balance` issues exactly one HTTP request
per call — to the single blockstream endpoint determined by the
network — consumes exactly one pending response, and returns that
response's outcome directly; any failure propagates immediately with no
retry, no backoff, no alternate provider, and no
`AllProvidersExhausted`.  (For networks other than mainnet/testnet it
returns `Unsupported network` without any request.) -/
theorem c3_single_attempt (r : HttpResp) (rs : List HttpResp) (a : String) :
    (getAddressBalance (r :: rs) a .bitcoin
       = (responseResult r, ["https://blockstream.info/api/address/" ++ a], rs))
  ∧ (getAddressBalance (r :: rs) a .testnet
       = (responseResult r, ["https://blockstream.info/testnet/api/address/" ++ a], rs))
  ∧ (getAddressBalance (r :: rs) a .signet
       = (.error "Unsupported network", [], r :: rs)) :=
  ⟨rfl, rfl, rfl⟩

/-- C5 counterexample: after `CheckBalance` and six `LoadMore` rounds
the app requests the page `(60, 70)` — `end_index = 70 ≥ 58` — and a
successful result still sets `has_more := true` (main.rs:167 sets it
unconditionally), where the claim requires `has_more = false` once
`end_index ≥ 58`.  No `46`/`12`/`58` bound exists anywhere in the
code. -/
theorem c5_counterexample :
    ((update (List.foldl stepState initialState
        [Msg.checkBalance, Msg.balanceResult (.ok []),
         Msg.loadMore, Msg.balanceResult (.ok []),
         Msg.loadMore, Msg.balanceResult (.ok []),
         Msg.loadMore, Msg.balanceResult (.ok []),
         Msg.loadMore, Msg.balanceResult (.ok []),
         Msg.loadMore, Msg.balanceResult (.ok [])])
      Msg.loadMore).2 = some (60, 70))
  ∧ (List.foldl stepState initialState
        [Msg.checkBalance, Msg.balanceResult (.ok []),
         Msg.loadMore, Msg.balanceResult (.ok []),
         Msg.loadMore, Msg.balanceResult (.ok []),
         Msg.loadMore, Msg.balanceResult (.ok []),
         Msg.loadMore, Msg.balanceResult (.ok []),
         Msg.loadMore, Msg.balanceResult (.ok []),
         Msg.loadMore, Msg.balanceResult (.ok [])]).has_more = true := by
  constructor
  · rfl
  · rfl

/-- C5 (amended): `check_balances` returns no `has_more` at all; the
application state machine initializes `has_more` to `true` and sets it
back to `true` after every successful balance result, whatever page was
requested — `has_more` is never computed from `end_index` and there is
no `total_addresses_in_bounds = 58` bound. -/
theorem c5_has_more_always_true (st : AppState) (l : List AddressBalance) :
    ((update st (Msg.balanceResult (.ok l))).1).has_more = true
  ∧ initialState.has_more = true :=
  ⟨rfl, rfl⟩

/-- C6 (code defect witness): for `funded = 0, spent = 1` the
`api.rs:25` balance computation `funded_txo_sum - spent_txo_sum` wraps
to `2^64 - 1` satoshis (release builds; debug builds panic on the
overflow) instead of the claimed `max(funded - spent, 0) = 0`, while
the older `main.rs:476` implementation (`saturating_sub`) does floor at
zero as claimed. -/
theorem c6_api_balance_wraps :
    apiBalanceSat 0 1 = 2 ^ 64 - 1 ∧ saturatingBalanceSat 0 1 = 0 := by
  constructor
  · decide
  · decide

/-- C8 (code defect witness): because `Instant::now().elapsed()`
measures the age of the instant it was just created from, the `now`
read at `utils.rs:10` is `0` on every call; hence for any stored
last-request value — and however much real time passed since the
previous acquire — `enforce_rate_limit` sleeps the full 250 ms and
stores `0`, never the current time.  The claim's behavior (return
immediately once 250 ms have already elapsed; record the current time)
never occurs. -/
theorem c8_rate_limit_constant_sleep :
    (∀ last : Nat, enforceRateLimitStep nowValue last = (MIN_REQUEST_INTERVAL_MS, 0))
  ∧ enforceRateLimitStep nowValue 0 = (250, 0) := by
  constructor
  · intro last
    simp [enforceRateLimitStep, nowValue, MIN_REQUEST_INTERVAL_MS]
  · rfl

/-- C10: every input string that starts with neither `xpub` nor `vpub`
makes `check_balances` fail with the unsupported-format parse error,
uniformly in every trusted primitive, derivation pipeline, and balance
oracle: the result does not depend on the network oracle at all, so the
failure is surfaced before any balance query can be issued. -/
theorem c10_unsupported_format {Key : Type}
    (b58 : String → Except String (List Nat)) (sha : List Nat → List Nat)
    (enc : List Nat → String) (xfs : String → Except String Key)
    (derive : Net → Key → Coord → Except String String)
    (bal : Nat → String → Except String Rat) (xinp : String) (s e : Nat)
    (hv : strStarts xinp "vpub" = false) (hx : strStarts xinp "xpub" = false) :
    checkBalances derive bal b58 sha enc xfs xinp s e
      = .error "Unsupported extended public key format. Must start with 'xpub' or 'vpub'" := by
  have hp : parseXpub b58 sha enc xinp
      = .error "Unsupported extended public key format. Must start with 'xpub' or 'vpub'" := by
    simp [parseXpub, hv, hx]
  simp [checkBalances, hp]

/-- C10 witness: the statement at the claim's own example `ypub1234`. -/
theorem c10_unsupported_format_witness :
    strStarts "ypub1234" "vpub" = false ∧ strStarts "ypub1234" "xpub" = false ∧
    checkBalances (okDerive (fun _ _ c => pathStr c)) (okBal (fun _ _ => 0))
        (fun _ => .error "unused") (fun h => h) (fun _ => "unused")
        (fun _ => .ok ()) "ypub1234" 0 2
      = .error "Unsupported extended public key format. Must start with 'xpub' or 'vpub'" :=
  ⟨rfl, rfl,
    c10_unsupported_format (fun _ => .error "unused") (fun h => h) (fun _ => "unused")
      (fun _ => .ok ()) (okDerive (fun _ _ c => pathStr c)) (okBal (fun _ _ => 0))
      "ypub1234" 0 2 rfl rfl⟩

/-- C1 counterexample: the page `(50, 51)` derives and queries the
external coordinate `(0, 50)` even though `50 ≥ 46`, and visits one
change coordinate `(1, 5)` appended after all externals rather than
interleaved — the claimed `ChainBounds` skipping (and interleaving)
does not exist in `check_balances`.  (Addresses are instantiated as
their own path strings, balances as `0`.) -/
theorem c1_counterexample :
    (checkBalances (okDerive (fun _ _ c => pathStr c)) (okBal (fun _ _ => 0))
        (fun _ => .error "unused") (fun h => h) (fun _ => "unused")
        (fun _ => .ok ()) "xpubDEMO" 50 51
      = .ok [⟨"m/0/50", 0, "m/0/50"⟩, ⟨"m/1/5", 0, "m/1/5"⟩])
  ∧ ¬ ((50 : Nat) < 46) := by
  constructor
  · rfl
  · decide

/-- C1 (amended): `check_balances` maps the requested `[start, end)`
range to the external coordinates `(0, start) .. (0, end-1)` in
increasing index order followed by exactly one change coordinate
`(1, start / 10)`: any successful page's derivation paths are exactly
`m/0/start .. m/0/(end-1), m/1/(start/10)` — with no interleaving, no
`ChainBounds`, and no skipping of indices beyond 46 or 12. -/
theorem c1_page_coordinates {Key : Type} (b58 : String → Except String (List Nat))
    (sha : List Nat → List Nat) (enc : List Nat → String) (K : Key)
    (A : Net → Key → Coord → String) (V : Nat → String → Rat)
    (xinp : String) (s e : Nat)
    (hv : strStarts xinp "vpub" = false) (hx : strStarts xinp "xpub" = true) :
    ∀ l, checkBalances (okDerive A) (okBal V) b58 sha enc (fun _ => .ok K) xinp s e
        = .ok l →
      l.map (fun ent => ent.derivation_path)
        = (List.range' s (e - s)).map (fun i => pathStr ⟨0, i⟩)
          ++ [pathStr ⟨1, s / 10⟩] := by
  intro l hl
  rw [checkBalances_all_ok b58 sha enc K A V xinp s e hv hx] at hl
  obtain rfl : entriesFor .bitcoin A K V (pageCoords s e) 0 = l := by
    simpa using hl
  rw [entriesFor_paths]
  simp [pageCoords]

/-- C1 witness: the amended statement evaluated at the concrete page
`(50, 51)` of `c1_counterexample`. -/
theorem c1_page_coordinates_witness :
    strStarts "xpubDEMO" "vpub" = false ∧ strStarts "xpubDEMO" "xpub" = true ∧
    ([⟨"m/0/50", (0 : Rat), "m/0/50"⟩, ⟨"m/1/5", 0, "m/1/5"⟩] : List AddressBalance).map
        (fun ent => ent.derivation_path)
      = (List.range' 50 (51 - 50)).map (fun i => pathStr ⟨0, i⟩)
        ++ [pathStr ⟨1, 50 / 10⟩] :=
  ⟨rfl, rfl,
    c1_page_coordinates (fun _ => .error "unused") (fun h => h) (fun _ => "unused") ()
      (fun _ _ c => pathStr c) (fun _ _ => 0) "xpubDEMO" 50 51 rfl rfl
      [⟨"m/0/50", 0, "m/0/50"⟩, ⟨"m/1/5", 0, "m/1/5"⟩] rfl⟩

/-- C4 counterexample: a page on which the first address succeeds (one
`AddressBalance` accumulated) and the second query fails fatally — with
exactly the HTTP 429 status error `api.rs` produces, which contains
neither transient marker `rate limit` nor `exceeded` — returns the bare
error and discards the accumulated entry, where the claim requires the
partial results to be returned (and classifies HTTP 429 as
Transient). -/
theorem c4_counterexample :
    checkBalances (okDerive (fun _ _ c => pathStr c))
        (fun n _ => if n = 0 then .ok 1 else .error "API error: 429 Too Many Requests")
        (fun _ => .error "unused") (fun h => h) (fun _ => "unused")
        (fun _ => .ok ()) "xpubDEMO" 0 2
      = .error "API error: 429 Too Many Requests" := by
  rfl

/-- C4 (amended): when the provider answers queries `0 .. j-1` of a
page and fails query `j` with message `msg`, `check_balances` returns
the accumulated partial page exactly when `msg` contains a transient
marker (`rate limit` or `exceeded`), and otherwise returns the bare
error — discarding the accumulated results even when some exist.
(HTTP 429 by status yields `API error: 429 ...`, which carries no
marker and is therefore fatal.) -/
theorem c4_partial_results {Key : Type} (b58 : String → Except String (List Nat))
    (sha : List Nat → List Nat) (enc : List Nat → String) (K : Key)
    (A : Net → Key → Coord → String) (V : Nat → String → Rat) (j : Nat)
    (msg : String) (tail : Nat → String → Except String Rat)
    (xinp : String) (s e : Nat)
    (hv : strStarts xinp "vpub" = false) (hx : strStarts xinp "xpub" = true)
    (hj : j < (pageCoords s e).length) :
    checkBalances (okDerive A) (errAtOracle V j msg tail) b58 sha enc
        (fun _ => .ok K) xinp s e
      = if isTransientErr msg then
          .ok (entriesFor .bitcoin A K V ((pageCoords s e).take j) 0)
        else .error msg :=
  checkBalances_errAt b58 sha enc K A V j msg tail xinp s e hv hx hj

/-- C4 witness: the amended statement at a concrete page `(0, 2)` whose
second query fails with the transient message `Rate limit exceeded`. -/
theorem c4_partial_results_witness :
    strStarts "xpubDEMO" "vpub" = false ∧ strStarts "xpubDEMO" "xpub" = true ∧
    1 < (pageCoords 0 2).length ∧
    checkBalances (okDerive (fun _ _ c => pathStr c))
        (errAtOracle (fun _ _ => 2) 1 "Rate limit exceeded" (fun _ _ => .error "x"))
        (fun _ => .error "unused") (fun h => h) (fun _ => "unused")
        (fun _ => .ok ()) "xpubDEMO" 0 2
      = if isTransientErr "Rate limit exceeded" then
          .ok (entriesFor .bitcoin (fun _ _ c => pathStr c) ()
                (fun _ _ => 2) ((pageCoords 0 2).take 1) 0)
        else .error "Rate limit exceeded" :=
  ⟨rfl, rfl, by decide,
    c4_partial_results (fun _ => .error "unused") (fun h => h) (fun _ => "unused") ()
      (fun _ _ c => pathStr c) (fun _ _ => 2) 1 "Rate limit exceeded"
      (fun _ _ => .error "x") "xpubDEMO" 0 2 rfl rfl (by decide)⟩

/-- C7: a fully successful page `(s, e)` with `s ≤ e` contains exactly
`(e - s) + 1` entries — the external addresses `m/0/s .. m/0/(e-1)` in
increasing order followed by one change entry at `m/1/(s / 10)` (the
explicit `entriesFor .. (pageCoords s e)` list); and under an arbitrary
provider, any successful (possibly early-stopped) result's
`(address, path)` pairs form a front segment of that same sequence. -/
theorem c7_page_contents {Key : Type} (b58 : String → Except String (List Nat))
    (sha : List Nat → List Nat) (enc : List Nat → String) (K : Key)
    (A : Net → Key → Coord → String) (V : Nat → String → Rat)
    (xinp : String) (s e : Nat)
    (hv : strStarts xinp "vpub" = false) (hx : strStarts xinp "xpub" = true)
    (hse : s ≤ e) :
    (checkBalances (okDerive A) (okBal V) b58 sha enc (fun _ => .ok K) xinp s e
       = .ok (entriesFor .bitcoin A K V (pageCoords s e) 0))
  ∧ (entriesFor .bitcoin A K V (pageCoords s e) 0).length = (e - s) + 1
  ∧ (∀ bal l, checkBalances (okDerive A) bal b58 sha enc (fun _ => .ok K) xinp s e
        = .ok l →
      ∃ m, apOf l = (apFull .bitcoin A K (pageCoords s e)).take m) := by
  refine ⟨checkBalances_all_ok b58 sha enc K A V xinp s e hv hx, ?_, ?_⟩
  · rw [entriesFor_length]
    simp [pageCoords]
  · intro bal l hl
    obtain ⟨net, nrm, k, m, hp, hk, hap⟩ :=
      checkBalances_ok_ap b58 sha enc (fun _ => .ok K) A bal xinp s e l hl
    rw [parseXpub_xpub b58 sha enc xinp hv hx] at hp
    injection hp with hp'
    injection hp' with hnet hnrm
    subst hnet
    have hkK : K = k := by simpa using hk
    subst hkK
    exact ⟨m, hap⟩

/-- C7 witness: the statement at the concrete page `(0, 2)`. -/
theorem c7_page_contents_witness :
    strStarts "xpubDEMO" "vpub" = false ∧ strStarts "xpubDEMO" "xpub" = true ∧
    (0 : Nat) ≤ 2 ∧
    ((checkBalances (okDerive (fun _ _ c => pathStr c)) (okBal (fun _ _ => 0))
        (fun _ => .error "unused") (fun h => h) (fun _ => "unused")
        (fun _ => .ok ()) "xpubDEMO" 0 2
       = .ok (entriesFor .bitcoin (fun _ _ c => pathStr c) () (fun _ _ => 0)
               (pageCoords 0 2) 0))
    ∧ (entriesFor .bitcoin (fun _ _ c => pathStr c) () (fun _ _ => 0)
        (pageCoords 0 2) 0).length = (2 - 0) + 1
    ∧ (∀ bal l, checkBalances (okDerive (fun _ _ c => pathStr c)) bal
          (fun _ => .error "unused") (fun h => h) (fun _ => "unused")
          (fun _ => .ok ()) "xpubDEMO" 0 2 = .ok l →
        ∃ m, apOf l = (apFull .bitcoin (fun _ _ c => pathStr c) ()
              (pageCoords 0 2)).take m)) :=
  ⟨rfl, rfl, by decide,
    c7_page_contents (fun _ => .error "unused") (fun h => h) (fun _ => "unused") ()
      (fun _ _ c => pathStr c) (fun _ _ => 0) "xpubDEMO" 0 2 rfl rfl (by decide)⟩

/-- C9: derivation is deterministic — whatever the two pages requested
and however the two providers behave (they may answer completely
differently), entries produced for the same derivation coordinate by
two runs on the same extended-key input carry the identical address
string.  The embedding is pure: the address at a coordinate is a
function of the parsed key and the coordinate alone, with no source of
randomness in the path from key and coordinate to P2WPKH address. -/
theorem c9_derivation_deterministic {Key : Type}
    (b58 : String → Except String (List Nat)) (sha : List Nat → List Nat)
    (enc : List Nat → String) (xfs : String → Except String Key)
    (A : Net → Key → Coord → String)
    (bal1 bal2 : Nat → String → Except String Rat) (xinp : String)
    (s1 e1 s2 e2 : Nat) (l1 l2 : List AddressBalance)
    (i1 i2 : Nat) (ent1 ent2 : AddressBalance) (c : Coord)
    (h1 : checkBalances (okDerive A) bal1 b58 sha enc xfs xinp s1 e1 = .ok l1)
    (h2 : checkBalances (okDerive A) bal2 b58 sha enc xfs xinp s2 e2 = .ok l2)
    (he1 : l1[i1]? = some ent1) (he2 : l2[i2]? = some ent2)
    (hc1 : (pageCoords s1 e1)[i1]? = some c)
    (hc2 : (pageCoords s2 e2)[i2]? = some c) :
    ent1.address = ent2.address := by
  obtain ⟨net1, nrm1, k1, m1, hp1, hk1, hap1⟩ :=
    checkBalances_ok_ap b58 sha enc xfs A bal1 xinp s1 e1 l1 h1
  obtain ⟨net2, nrm2, k2, m2, hp2, hk2, hap2⟩ :=
    checkBalances_ok_ap b58 sha enc xfs A bal2 xinp s2 e2 l2 h2
  rw [hp1] at hp2
  injection hp2 with hp'
  injection hp' with hnet hnrm
  subst hnet
  subst hnrm
  rw [hk1] at hk2
  injection hk2 with hkk
  subst hkk
  have t1 : (apOf l1)[i1]? = some (ent1.address, ent1.derivation_path) := by
    simp [apOf, he1]
  have t2 : (apOf l2)[i2]? = some (ent2.address, ent2.derivation_path) := by
    simp [apOf, he2]
  rw [hap1, List.getElem?_take] at t1
  rw [hap2, List.getElem?_take] at t2
  by_cases hi1 : i1 < m1
  · by_cases hi2 : i2 < m2
    · rw [if_pos hi1] at t1
      rw [if_pos hi2] at t2
      simp [apFull, hc1] at t1
      simp [apFull, hc2] at t2
      rw [← t1.1, ← t2.1]
    · rw [if_neg hi2] at t2
      exact absurd t2 (by simp)
  · rw [if_neg hi1] at t1
    exact absurd t1 (by simp)

/-- C9 witness: two concrete runs over overlapping pages `(0, 2)` and
`(1, 3)` with different providers; the shared coordinate `(0, 1)`
yields the same address in both. -/
theorem c9_derivation_deterministic_witness :
    (checkBalances (okDerive (fun _ _ c => pathStr c)) (okBal (fun _ _ => 0))
        (fun _ => .error "unused") (fun h => h) (fun _ => "unused")
        (fun _ => .ok ()) "xpubDEMO" 0 2
      = .ok [⟨"m/0/0", 0, "m/0/0"⟩, ⟨"m/0/1", 0, "m/0/1"⟩, ⟨"m/1/0", 0, "m/1/0"⟩])
  ∧ (checkBalances (okDerive (fun _ _ c => pathStr c)) (okBal (fun _ _ => 7))
        (fun _ => .error "unused") (fun h => h) (fun _ => "unused")
        (fun _ => .ok ()) "xpubDEMO" 1 3
      = .ok [⟨"m/0/1", 7, "m/0/1"⟩, ⟨"m/0/2", 7, "m/0/2"⟩, ⟨"m/1/0", 7, "m/1/0"⟩])
  ∧ ((⟨"m/0/1", 0, "m/0/1"⟩ : AddressBalance).address
      = (⟨"m/0/1", 7, "m/0/1"⟩ : AddressBalance).address) :=
  ⟨rfl, rfl,
    c9_derivation_deterministic (fun _ => .error "unused") (fun h => h)
      (fun _ => "unused") (fun _ => .ok ()) (fun _ _ c => pathStr c)
      (okBal (fun _ _ => 0)) (okBal (fun _ _ => 7)) "xpubDEMO" 0 2 1 3
      [⟨"m/0/0", 0, "m/0/0"⟩, ⟨"m/0/1", 0, "m/0/1"⟩, ⟨"m/1/0", 0, "m/1/0"⟩]
      [⟨"m/0/1", 7, "m/0/1"⟩, ⟨"m/0/2", 7, "m/0/2"⟩, ⟨"m/1/0", 7, "m/1/0"⟩]
      1 0 ⟨"m/0/1", 0, "m/0/1"⟩ ⟨"m/0/1", 7, "m/0/1"⟩ ⟨0, 1⟩
      rfl rfl rfl rfl rfl rfl⟩

end WalletTool
